import Mathlib

/-!
Shallow embedding of `src/main.py` (fuel-price dataset parser and heatmap
builder) and proofs about it.  Machine floats are modelled as exact
rationals (`ℚ`); Python strings as Lean `String` / `List Char`; Python
dicts as insertion-ordered association lists; raised exceptions as
`Except Unit` / `Option` failure values.
-/

namespace Carbura

/-- A Python `dict` modelled as an insertion-ordered association list. -/
abbrev PyDict (α β : Type) : Type := List (α × β)

/-- `d[k]` lookup (also the `k in d` test via `isSome`). -/
def PyDict.lookup {α β : Type} [DecidableEq α] (d : PyDict α β) (k : α) : Option β :=
  match d with
  | [] => none
  | (k', v) :: t => if k = k' then some v else PyDict.lookup t k

/-- `d[k] = v`: overwrite in place when the key is present, append otherwise
(Python dicts preserve first-insertion order on overwrite). -/
def PyDict.insert {α β : Type} [DecidableEq α] (d : PyDict α β) (k : α) (v : β) : PyDict α β :=
  match d with
  | [] => [(k, v)]
  | (k', v') :: t => if k = k' then (k', v) :: t else (k', v') :: PyDict.insert t k v

/-- `d.keys()` in iteration (insertion) order. -/
def PyDict.keys {α β : Type} (d : PyDict α β) : List α := d.map Prod.fst

/-- Numeric value of a run of decimal digit characters. -/
def digitsVal (cs : List Char) : ℕ := cs.foldl (fun n c => 10 * n + (c.toNat - 48)) 0

/-- Exponent part of a Python float literal: optional sign then a nonempty
digit run ending the string. -/
def pyExponent (mant : ℚ) (t : List Char) : Option ℚ :=
  let p : ℤ × List Char :=
    if t.head? = some '+' then (1, t.tail)
    else if t.head? = some '-' then (-1, t.tail)
    else (1, t)
  let ed := p.2.takeWhile Char.isDigit
  if ed.isEmpty || !(p.2.dropWhile Char.isDigit).isEmpty then none
  else some (mant * (10 : ℚ) ^ ((p.1 * (digitsVal ed : ℤ))))

/-- Unsigned Python float literal: digits with at most one point (at least
one digit overall), optionally followed by an exponent. -/
def pyFloatUnsigned (cs : List Char) : Option ℚ :=
  let ip := cs.takeWhile Char.isDigit
  let r1 := cs.dropWhile Char.isDigit
  let fp := if r1.head? = some '.' then r1.tail.takeWhile Char.isDigit else []
  let r2 := if r1.head? = some '.' then r1.tail.dropWhile Char.isDigit else r1
  if ip.isEmpty && fp.isEmpty then none
  else
    let mant : ℚ := (digitsVal ip : ℚ) + (digitsVal fp : ℚ) / (10 : ℚ) ^ fp.length
    if r2.isEmpty then some mant
    else if r2.head? = some 'e' ∨ r2.head? = some 'E' then pyExponent mant r2.tail
    else none

/-- Leading/trailing whitespace removal, as Python `float()`/`int()` do. -/
def pyStrip (cs : List Char) : List Char :=
  ((cs.dropWhile Char.isWhitespace).reverse.dropWhile Char.isWhitespace).reverse

/-- Python's builtin `float(s)`, returning `none` where Python raises
`ValueError`.  Modelled grammar: optional surrounding whitespace, optional
sign, digits with at most one point, optional exponent.  `inf`/`nan`
literals are omitted (no string into which `get_coordinate` has inserted a
`.` can parse as one) and digit-group underscores are omitted (the
dataset's numeric fields carry none). -/
def pyFloatChars (cs : List Char) : Option ℚ :=
  let t := pyStrip cs
  if t.head? = some '+' then pyFloatUnsigned t.tail
  else if t.head? = some '-' then (pyFloatUnsigned t.tail).map (fun q => -q)
  else pyFloatUnsigned t

/-- Python's builtin `float` on a `String`. -/
def pyFloat (s : String) : Option ℚ := pyFloatChars s.data

/-- Python's builtin `int(s)`: optional whitespace, optional sign, nonempty
digit run (underscores again omitted). -/
def pyInt (s : String) : Option ℤ :=
  let t := pyStrip s.data
  let p : ℤ × List Char :=
    if t.head? = some '+' then (1, t.tail)
    else if t.head? = some '-' then (-1, t.tail)
    else (1, t)
  if p.2.isEmpty || !(p.2.all Char.isDigit) then none
  else some (p.1 * (digitsVal p.2 : ℤ))

/-- `get_coordinate` from `src/main.py` lines 34-44: take the part of the
string before the first `.` (Python `angle.split(".")[0]`), insert a single
decimal point after the first `number_len` characters, and parse the result
with `float`.  `none` models the raised `ValueError`. -/
def get_coordinate (angle : String) (number_len : ℕ) : Option ℚ :=
  let a := angle.data.takeWhile (fun c => c ≠ '.')
  pyFloatChars (a.take number_len ++ '.' :: a.drop number_len)

/-- Gregorian leap year, as `datetime` uses it. -/
def isLeap (y : ℕ) : Bool := (y % 4 == 0 && y % 100 != 0) || y % 400 == 0

/-- Days in a month, as `datetime` validates them. -/
def daysInMonth (y m : ℕ) : ℕ :=
  if m = 2 then (if isLeap y then 29 else 28)
  else if m = 4 ∨ m = 6 ∨ m = 9 ∨ m = 11 then 30 else 31

/-- The `len`-character decimal number starting at position `i`. -/
def natAt (cs : List Char) (i len : ℕ) : Option ℕ :=
  let sub := (cs.drop i).take len
  if sub.length = len ∧ sub.all Char.isDigit then some (digitsVal sub) else none

/-- Line 102 composed:
`datetime.strptime(s, "%Y-%m-%dT%H:%M:%S").strftime("%Y-%m-%d")`, i.e.
validate the timestamp and truncate it to its date.  Modelled for the
dataset's canonical zero-padded `YYYY-MM-DDTHH:MM:SS` form (`strptime`
additionally accepts un-padded fields, which this dataset does not use). -/
def majToDate (s : String) : Option String :=
  let cs := s.data
  match natAt cs 0 4, natAt cs 5 2, natAt cs 8 2, natAt cs 11 2, natAt cs 14 2, natAt cs 17 2 with
  | some y, some mo, some d, some h, some mi, some sec =>
    if cs.length = 19 ∧ cs.get? 4 = some '-' ∧ cs.get? 7 = some '-' ∧
       cs.get? 10 = some 'T' ∧ cs.get? 13 = some ':' ∧ cs.get? 16 = some ':' ∧
       1 ≤ y ∧ 1 ≤ mo ∧ mo ≤ 12 ∧ 1 ≤ d ∧ d ≤ daysInMonth y mo ∧
       h ≤ 23 ∧ mi ≤ 59 ∧ sec ≤ 59
    then some ⟨cs.take 10⟩ else none
  | _, _, _, _, _, _ => none

/-- Lines 87-88: `datetime.strptime(t, "%H.%M").time()` — a 1-2 digit hour
(≤ 23), a literal period, a 1-2 digit minute (≤ 59), nothing after. -/
def parseHM (s : String) : Option (ℕ × ℕ) :=
  let cs := s.data
  let hp := cs.takeWhile Char.isDigit
  match cs.dropWhile Char.isDigit with
  | '.' :: t =>
    let mp := t.takeWhile Char.isDigit
    if 1 ≤ hp.length ∧ hp.length ≤ 2 ∧ digitsVal hp ≤ 23 ∧
       1 ≤ mp.length ∧ mp.length ≤ 2 ∧ digitsVal mp ≤ 59 ∧
       t.dropWhile Char.isDigit = []
    then some (digitsVal hp, digitsVal mp) else none
  | _ => none

/-- Modelled from the spec: `models/HoursRange.py` is not under `src/`;
§3 HoursRange — one open interval, a start and an end time-of-day
(hour, minute). -/
structure HoursRange where
  hour_start : ℕ × ℕ
  hour_end : ℕ × ℕ
deriving DecidableEq

/-- Modelled from the spec: `models/OpeningHours.py` is not under `src/`;
§3 OpeningHours — mapping day index → optional HoursRange (`none` means
closed that day), as built at lines 77-93. -/
structure OpeningHours where
  days : PyDict ℤ (Option HoursRange)
deriving DecidableEq

/-- Modelled from the spec: `models/GasStation.py` is not under `src/`;
§3 Station — the immutable assembled entity, fields exactly as passed at
lines 109-120. -/
structure GasStation where
  id : ℤ
  name : Option String
  address : Option String
  latitude : ℚ
  longitude : ℚ
  postal_code : Option String
  city : Option String
  is_always_open : Bool
  opening_hours : Option OpeningHours
  gas_price_history : PyDict (Option String) (PyDict String ℚ)
deriving DecidableEq

/-- A `<horaire>` child of a day node: its `ouverture`/`fermeture`
attributes (`none` = attribute absent, so `.get` returns Python `None`). -/
structure RawHoraire where
  ouverture : Option String
  fermeture : Option String
deriving DecidableEq

/-- A day node inside `<horaires>`.  `has_ouverture` models the line-80 test
`day.find("ouverture") is not None`; `horaire` models `day.find("horaire")`
(note the two different child tags). -/
structure RawJour where
  id : Option String
  ferme : Option String
  has_ouverture : Bool
  horaire : Option RawHoraire
deriving DecidableEq

/-- The `<horaires>` block.  `automate_24_24` models the line-76 test
`"automate-24-24" in horaires_element.attrib`. -/
structure RawHoraires where
  automate_24_24 : Bool
  jours : List RawJour
deriving DecidableEq

/-- A `<prix>` node.  `attribEmpty` models the line-99 guard
`if prix_element.attrib` being falsy. -/
structure RawPrix where
  attribEmpty : Bool
  nom : Option String
  valeur : Option String
  maj : Option String
deriving DecidableEq

/-- One `<pdv>` station node.  Attribute fields (`id`, `latitude`,
`longitude`, `cp`) are `none` when the attribute is absent (`.get` gives
Python `None`); `adresse`/`ville` model `find(tag)` results: `none` =
child element absent (so `.text` raises), `some t` = element present with
text `t` (which is itself `None` for an empty element). -/
structure RawPdv where
  id : Option String
  adresse : Option (Option String)
  latitude : Option String
  longitude : Option String
  cp : Option String
  ville : Option (Option String)
  horaires : Option RawHoraires
  prix : List RawPrix
deriving DecidableEq

/-- The try block at lines 62-72: extract address, decode both coordinates,
read `cp`, extract city.  `none` models any exception there, caught by
`except: continue`. -/
def tryBlock (p : RawPdv) : Option (Option String × ℚ × ℚ × Option String × Option String) := do
  let address ← p.adresse
  let latS ← p.latitude
  let latitude ← get_coordinate latS 2
  let lonS ← p.longitude
  let longitude ← get_coordinate lonS 1
  let city ← p.ville
  pure (address, latitude, longitude, p.cp, city)

/-- A record passes mandatory-field validation (address and city elements
present, both coordinates decode). -/
def mandatoryOk (p : RawPdv) : Bool := (tryBlock p).isSome

/-- Body of the `for day in horaires_element` loop, lines 78-91.
`int(day.get("id"))` raises on a missing or non-numeric id; in the open
branch, a missing `<horaire>` child, a missing time attribute
(`strptime(None, ...)`), or an unparseable time each raise. -/
def processJour (days : PyDict ℤ (Option HoursRange)) (day : RawJour) :
    Except Unit (PyDict ℤ (Option HoursRange)) :=
  match day.id.bind pyInt with
  | none => Except.error ()
  | some day_id =>
    if day.ferme = some "1" ∨ day.has_ouverture = false then
      Except.ok (days.insert day_id none)
    else
      match day.horaire with
      | none => Except.error ()
      | some hr =>
        match hr.ouverture, hr.fermeture with
        | some opening_time, some closing_time =>
          match parseHM opening_time, parseHM closing_time with
          | some start_time, some end_time =>
            Except.ok (days.insert day_id (some ⟨start_time, end_time⟩))
          | _, _ => Except.error ()
        | _, _ => Except.error ()

/-- The `for day in horaires_element` loop threaded over all days. -/
def runJours (days : PyDict ℤ (Option HoursRange)) : List RawJour →
    Except Unit (PyDict ℤ (Option HoursRange))
  | [] => Except.ok days
  | day :: rest =>
    match processJour days day with
    | Except.error e => Except.error e
    | Except.ok days' => runJours days' rest

/-- Lines 76-93: the `<horaires>` block — the always-open marker and the
per-day schedule loop. -/
def processHoraires (h : RawHoraires) : Except Unit (Bool × OpeningHours) :=
  match runJours [] h.jours with
  | Except.error e => Except.error e
  | Except.ok days => Except.ok (h.automate_24_24, ⟨days⟩)

/-- Body of the `for prix_element in pdv.findall("prix")` loop,
lines 98-107: `float(valeur)` and `strptime(maj, ...)` raise on a missing
or malformed attribute; otherwise the (possibly fresh) inner per-date dict
is updated in place. -/
def processPrix (hist : PyDict (Option String) (PyDict String ℚ)) (e : RawPrix) :
    Except Unit (PyDict (Option String) (PyDict String ℚ)) :=
  if e.attribEmpty then Except.ok hist
  else
    match e.valeur.bind pyFloat, e.maj.bind majToDate with
    | some price, some update_date =>
      Except.ok (hist.insert e.nom (((hist.lookup e.nom).getD []).insert update_date price))
    | _, _ => Except.error ()

/-- The `for prix_element ...` loop threaded over all price nodes. -/
def runPrix (hist : PyDict (Option String) (PyDict String ℚ)) : List RawPrix →
    Except Unit (PyDict (Option String) (PyDict String ℚ))
  | [] => Except.ok hist
  | e :: es =>
    match processPrix hist e with
    | Except.error er => Except.error er
    | Except.ok hist' => runPrix hist' es

/-- Lines 98-107 over the whole record, starting from the empty
`gas_price_history` of line 70. -/
def buildPriceHistory (es : List RawPrix) : Except Unit (PyDict (Option String) (PyDict String ℚ)) :=
  runPrix [] es

/-- What one `<prix>` entry contributes once parsed: (fuel-type tag,
truncated date, price); `none` when it is skipped by the line-99 guard or
fails to parse. -/
def parsePrix (e : RawPrix) : Option (Option String × String × ℚ) :=
  if e.attribEmpty then none
  else
    match e.valeur.bind pyFloat, e.maj.bind majToDate with
    | some price, some d => some (e.nom, d, price)
    | _, _ => none

/-- The last entry of the record's price-update list carrying the given
(fuel-type, date) pair, in record-scan order (spec-side definition for the
last-write-wins rule). -/
def lastWriteValue (es : List RawPrix) (fuel : Option String) (date : String) : Option ℚ :=
  (((es.filterMap parsePrix).filter
      (fun r => decide (r.1 = fuel ∧ r.2.1 = date))).getLast?).map (fun r => r.2.2)

/-- State of the main loop of `parse_data`: the accumulated station list,
the Python local variable `always_open` (`none` = not yet bound, so reading
it raises `NameError`), and the `count` counter. -/
structure LoopState where
  gas_stations : List GasStation
  always_open : Option Bool
  count : ℕ
deriving DecidableEq

/-- Line 54. -/
def MAXX : ℕ := 9999999

/-- One iteration of the main loop, lines 61-126.  Returns the new state
and the line-125/126 `break` flag; `Except.error ()` is an uncaught
exception aborting `parse_data`. -/
def processRecord (st : LoopState) (pdv : RawPdv) (sid : ℤ) (name : Option String) :
    Except Unit (LoopState × Bool) :=
  match tryBlock pdv with
  | none => Except.ok (st, false)
  | some (address, latitude, longitude, postal_code, city) =>
    match ((match pdv.horaires with
            | none => Except.ok ((none : Option OpeningHours), st.always_open)
            | some h => (processHoraires h).map (fun r => (some r.2, some r.1))) :
             Except Unit (Option OpeningHours × Option Bool)) with
    | Except.error e => Except.error e
    | Except.ok hoursAndFlag =>
      match hoursAndFlag.2 with
      | none => Except.error ()
      | some is_always_open =>
        match buildPriceHistory pdv.prix with
        | Except.error e => Except.error e
        | Except.ok gas_price_history =>
          Except.ok
            (⟨st.gas_stations ++
                [⟨sid, name, address, latitude, longitude, postal_code, city,
                  is_always_open, hoursAndFlag.1, gas_price_history⟩],
              hoursAndFlag.2, st.count + 1⟩,
             decide (st.count + 1 > MAXX))

/-- The `for pdv, (station_id, name) in zip(...)` loop, lines 61-126,
including the `break`. -/
def runLoop (st : LoopState) : List (RawPdv × ℤ × Option String) → Except Unit LoopState
  | [] => Except.ok st
  | x :: xs =>
    match processRecord st x.1 x.2.1 x.2.2 with
    | Except.error e => Except.error e
    | Except.ok r => if r.2 then Except.ok r.1 else runLoop r.1 xs

/-- `get_name_station`, lines 15-29: one best-effort HTTP lookup for one
station id.  The network interaction (the GET, the status-code check, the
`<strong>` marker search, and the catch-all `except: return None`) is
abstracted as the oracle `net`: `net id = some name` when the request
succeeds and the marker is found, `none` on any failure — exactly the
function's observable behaviour. -/
def get_name_station (net : ℤ → Option String) (id : ℤ) : Option String := net id

/-- `get_station_name`, lines 31-32: tag the lookup result with its own
id. -/
def get_station_name (net : ℤ → Option String) (station_id : ℤ) : ℤ × Option String :=
  (station_id, get_name_station net station_id)

/-- The result table of `ThreadPoolExecutor(150).map(get_station_name, ids)`
(lines 58-59): tasks complete in an arbitrary `order`, each writing only
its own input-index slot of the table.  (The pool size 150 only bounds how
many run at once; it does not affect the table.) -/
def poolTable (net : ℤ → Option String) (ids : List ℤ) (order : List ℕ) :
    ℕ → Option (ℤ × Option String) :=
  order.foldl (fun t i => Function.update t i ((ids.get? i).map (get_station_name net))) (fun _ => none)

/-- `executor.map` yields the completed slots in input order, whatever the
completion `order` was. -/
def executorMap (net : ℤ → Option String) (ids : List ℤ) (order : List ℕ) :
    List (Option (ℤ × Option String)) :=
  (List.range ids.length).map (poolTable net ids order)

/-- `parse_data`, lines 46-130.  The XML document is the list of its `<pdv>`
nodes, the network the oracle `net`.  Line 55 (`int(pdv.get("id"))` for
every node) runs before the loop; line 56 truncates the id list to `maxx`;
the pool then resolves names in input order; line 128 re-reads every node's
`id` attribute, which cannot fail once line 55 succeeded. -/
def readIds : List RawPdv → Except Unit (List ℤ)
  | [] => Except.ok []
  | p :: ps =>
    match p.id.bind pyInt with
    | none => Except.error ()
    | some i =>
      match readIds ps with
      | Except.error e => Except.error e
      | Except.ok is => Except.ok (i :: is)

/-- `parse_data` assembled: read all ids (line 55), truncate (line 56),
resolve names (lines 58-59), run the main loop (lines 61-126). -/
def parse_data (net : ℤ → Option String) (root : List RawPdv) : Except Unit (List GasStation) :=
  match readIds root with
  | Except.error e => Except.error e
  | Except.ok station_ids =>
    let ids := station_ids.take MAXX
    let station_names := ids.map (get_station_name net)
    match runLoop ⟨[], none, 0⟩ (root.zip station_names) with
    | Except.error e => Except.error e
    | Except.ok final => Except.ok final.gas_stations

/-- The forward fill, lines 154-163: for each window date emit the stored
price when present, otherwise the last array element (`arr[-1]`) when the
array is nonempty, otherwise 0. -/
def forward_fill (price_history : PyDict String ℚ) (date_strings : List String) : List ℚ :=
  date_strings.foldl
    (fun acc date_key =>
      acc ++ [match price_history.lookup date_key with
              | some price => price
              | none => (acc.getLast?).getD 0])
    []

/-- The Time-Series Builder policy as §4.6 of the spec words it
(spec-side definition, compared with `forward_fill`): iterate the window
holding a "last known" value, initially absent; a stored date emits its
price and becomes the last known value; otherwise emit the last known
value when one exists, else 0. -/
def forwardFillSpecGo (ph : PyDict String ℚ) (last : Option ℚ) : List String → List ℚ
  | [] => []
  | d :: ds =>
    match ph.lookup d with
    | some p => p :: forwardFillSpecGo ph (some p) ds
    | none => last.getD 0 :: forwardFillSpecGo ph last ds

/-- §4.6 forward fill over a window, starting with no last-known value. -/
def forwardFillSpec (ph : PyDict String ℚ) (window : List String) : List ℚ :=
  forwardFillSpecGo ph none window

/-- Lines 151-163: one station's per-fuel-type arrays (`"carburants"`). -/
def buildCarburants (window : List String) (hist : PyDict (Option String) (PyDict String ℚ)) :
    PyDict (Option String) (List ℚ) :=
  hist.map (fun e => (e.1, forward_fill e.2 window))

/-- Line 134: the day offsets of the default window, oldest first —
`range(365, 0, -1)` = `[365, 364, ..., 1]`. -/
def dayNumbers : List ℕ := (List.range 365).map (fun k => 365 - k)

/-- Line 134: the default window itself; `dateOf n` abstracts
`(datetime.now() - timedelta(days=n)).strftime("%Y-%m-%d")`. -/
def default_date_strings (dateOf : ℕ → String) : List String := dayNumbers.map dateOf

/-- A day entry exhibiting the line-80/84 tag mismatch: not marked closed
and having an `<ouverture>` child (so the open branch is taken), while its
times cannot be read from a `<horaire>` child — the child is absent, a
time attribute is absent, or a time does not parse. -/
def jourMismatch (day : RawJour) : Bool :=
  decide (day.ferme ≠ some "1") && day.has_ouverture &&
  (match day.horaire with
   | none => true
   | some hr =>
     match hr.ouverture, hr.fermeture with
     | some opening_time, some closing_time =>
       (match parseHM opening_time, parseHM closing_time with
        | some _, some _ => false
        | _, _ => true)
     | _, _ => true)

/-- Demonstration network oracle for concrete runs: id 1 resolves, all
other lookups fail. -/
def demoNet : ℤ → Option String := fun i => if i = 1 then some "STATION ELAN" else none

/-- A fully well-formed `<pdv>` node with the given id, hours block and
price list. -/
def demoPdv (i : String) (hor : Option RawHoraires) (px : List RawPrix) : RawPdv :=
  ⟨some i, some (some "1 RUE DE LA GARE"), some "4620100", some "519800", some "01000",
   some (some "BOURG-EN-BRESSE"), hor, px⟩

/-- A `<pdv>` node with no `<ville>` child: mandatory-field validation
fails, the record is dropped. -/
def demoNoCityPdv : RawPdv :=
  ⟨some "7", some (some "2 PLACE DU MARCHE"), some "4620100", some "519800", some "01000",
   none, none, []⟩

/-- An `<horaires automate-24-24="">` block with no day entries. -/
def demoAutomate : RawHoraires := ⟨true, []⟩

/-- A well-formed `<prix>` node for fuel `Gazole`. -/
def demoPrix (v maj : String) : RawPrix := ⟨false, some "Gazole", some v, some maj⟩

/-- A day node with an `<ouverture>` child but no `<horaire>` child. -/
def demoBadJour : RawJour := ⟨some "1", none, true, none⟩

/-- One entry of the output `"stations"` list, fields as at lines
139-149. -/
structure StationJson where
  id : ℤ
  name : Option String
  address : Option String
  latitude : ℚ
  longitude : ℚ
  postal_code : Option String
  city : Option String
  is_always_open : Bool
  carburants : PyDict (Option String) (List ℚ)
deriving DecidableEq

/-- `create_json_heatmap`, lines 132-170, up to the in-memory structure
(serialisation to `graph_data/data.json` is outside the core). -/
def create_json_heatmap (dateOf : ℕ → String) (gas_stations : List GasStation) :
    List StationJson :=
  gas_stations.map (fun gs =>
    ⟨gs.id, gs.name, gs.address, gs.latitude, gs.longitude, gs.postal_code,
     gs.city, gs.is_always_open,
     buildCarburants (default_date_strings dateOf) gs.gas_price_history⟩)

/-! ### List and char helper lemmas -/

theorem takeWhile_all {α : Type} (p : α → Bool) (l : List α) (h : ∀ c ∈ l, p c = true) :
    l.takeWhile p = l := by
  induction l with
  | nil => rfl
  | cons a t ih =>
    simp [List.takeWhile_cons, h a (by simp), ih (fun c hc => h c (by simp [hc]))]

theorem dropWhile_all {α : Type} (p : α → Bool) (l : List α) (h : ∀ c ∈ l, p c = true) :
    l.dropWhile p = [] := by
  induction l with
  | nil => rfl
  | cons a t ih =>
    simp [List.dropWhile_cons, h a (by simp), ih (fun c hc => h c (by simp [hc]))]

theorem dropWhile_none {α : Type} (p : α → Bool) (l : List α) (h : ∀ c ∈ l, p c = false) :
    l.dropWhile p = l := by
  cases l with
  | nil => rfl
  | cons a t => simp [List.dropWhile_cons, h a (by simp)]

theorem takeWhile_append_not {α : Type} (p : α → Bool) (l₁ l₂ : List α) (x : α)
    (h₁ : ∀ c ∈ l₁, p c = true) (hx : p x = false) :
    (l₁ ++ x :: l₂).takeWhile p = l₁ := by
  induction l₁ with
  | nil => simp [List.takeWhile_cons, hx]
  | cons a t ih =>
    simp [List.takeWhile_cons, h₁ a (by simp), ih (fun c hc => h₁ c (by simp [hc]))]

theorem dropWhile_append_not {α : Type} (p : α → Bool) (l₁ l₂ : List α) (x : α)
    (h₁ : ∀ c ∈ l₁, p c = true) (hx : p x = false) :
    (l₁ ++ x :: l₂).dropWhile p = x :: l₂ := by
  induction l₁ with
  | nil => simp [List.dropWhile_cons, hx]
  | cons a t ih =>
    simp [List.dropWhile_cons, h₁ a (by simp), ih (fun c hc => h₁ c (by simp [hc]))]

theorem pyStrip_eq_self (cs : List Char) (h : ∀ c ∈ cs, c.isWhitespace = false) :
    pyStrip cs = cs := by
  have h2 : ∀ c ∈ cs.reverse, c.isWhitespace = false := fun c hc => h c (List.mem_reverse.mp hc)
  unfold pyStrip
  rw [dropWhile_none _ _ h, dropWhile_none _ _ h2, List.reverse_reverse]

theorem digit_not_ws {c : Char} (h : c.isDigit = true) : c.isWhitespace = false := by
  cases hw : c.isWhitespace
  · rfl
  · exfalso
    have ht := hw
    simp only [Char.isWhitespace, Bool.or_eq_true, decide_eq_true_eq] at ht
    rcases ht with ((rfl | rfl) | rfl) | rfl <;> exact absurd h (by decide)

theorem digit_ne_dot {c : Char} (h : c.isDigit = true) : c ≠ '.' := by
  rintro rfl; exact absurd h (by decide)

theorem digit_ne_plus {c : Char} (h : c.isDigit = true) : c ≠ '+' := by
  rintro rfl; exact absurd h (by decide)

theorem digit_ne_minus {c : Char} (h : c.isDigit = true) : c ≠ '-' := by
  rintro rfl; exact absurd h (by decide)

/-! ### The float parser on a digit string with one inserted point -/

theorem pyFloatUnsigned_digits (l₁ l₂ : List Char)
    (h₁ : ∀ c ∈ l₁, c.isDigit = true) (h₂ : ∀ c ∈ l₂, c.isDigit = true)
    (hne : l₁ ++ l₂ ≠ []) :
    pyFloatUnsigned (l₁ ++ '.' :: l₂)
      = some ((digitsVal l₁ : ℚ) + (digitsVal l₂ : ℚ) / (10 : ℚ) ^ l₂.length) := by
  have ht : (l₁ ++ '.' :: l₂).takeWhile Char.isDigit = l₁ :=
    takeWhile_append_not _ _ _ _ h₁ (by decide)
  have hd : (l₁ ++ '.' :: l₂).dropWhile Char.isDigit = '.' :: l₂ :=
    dropWhile_append_not _ _ _ _ h₁ (by decide)
  have ht2 : l₂.takeWhile Char.isDigit = l₂ := takeWhile_all _ _ h₂
  have hd2 : l₂.dropWhile Char.isDigit = [] := dropWhile_all _ _ h₂
  have hcond : (l₁.isEmpty && l₂.isEmpty) = false := by
    cases l₁ <;> cases l₂ <;> simp_all
  simp [pyFloatUnsigned, ht, hd, ht2, hd2, hcond]

theorem pyFloatChars_digit_dot (l₁ l₂ : List Char)
    (h₁ : ∀ c ∈ l₁, c.isDigit = true) (h₂ : ∀ c ∈ l₂, c.isDigit = true)
    (hne : l₁ ++ l₂ ≠ []) :
    pyFloatChars (l₁ ++ '.' :: l₂)
      = some ((digitsVal l₁ : ℚ) + (digitsVal l₂ : ℚ) / (10 : ℚ) ^ l₂.length) := by
  have hnw : ∀ c ∈ l₁ ++ '.' :: l₂, c.isWhitespace = false := by
    intro c hc
    rcases List.mem_append.mp hc with hc | hc
    · exact digit_not_ws (h₁ c hc)
    · rcases List.mem_cons.mp hc with rfl | hc
      · decide
      · exact digit_not_ws (h₂ c hc)
  have hstrip := pyStrip_eq_self _ hnw
  have hplus : ¬((l₁ ++ '.' :: l₂).head? = some '+') := by
    cases l₁ with
    | nil => simp
    | cons a t =>
      simp only [List.cons_append, List.head?_cons, Option.some.injEq]
      exact digit_ne_plus (h₁ a (by simp))
  have hminus : ¬((l₁ ++ '.' :: l₂).head? = some '-') := by
    cases l₁ with
    | nil => simp
    | cons a t =>
      simp only [List.cons_append, List.head?_cons, Option.some.injEq]
      exact digit_ne_minus (h₁ a (by simp))
  unfold pyFloatChars
  rw [hstrip, if_neg hplus, if_neg hminus]
  exact pyFloatUnsigned_digits _ _ h₁ h₂ hne

/-- On a nonempty all-digit string the decoder always returns a value,
whatever `number_len` is. -/
theorem get_coordinate_digits_isSome (s : String) (n : ℕ)
    (hne : s ≠ "") (hd : ∀ c ∈ s.data, c.isDigit = true) :
    (get_coordinate s n).isSome = true := by
  have hdne : s.data ≠ [] := by
    intro h
    apply hne
    cases s
    simp_all
  have ha : s.data.takeWhile (fun c => decide (c ≠ '.')) = s.data := by
    apply takeWhile_all
    intro c hc
    exact decide_eq_true (digit_ne_dot (hd c hc))
  unfold get_coordinate
  rw [ha]
  rw [pyFloatChars_digit_dot (s.data.take n) (s.data.drop n)
        (fun c hc => hd c (List.take_subset n s.data hc))
        (fun c hc => hd c (List.drop_subset n s.data hc))
        (by rw [List.take_append_drop]; exact hdne)]
  rfl

/-! ### Claims C2 and C3 -/

/-- C2: the coordinate decoder reproduces the worked contract exactly:
`decode("4620100", 2) = 46.201`, `decode("519800", 1) = 5.198`,
`decode("4584829.0858556", 1) = 4.584829` (the substring before the first
decimal point is split after `integerDigits` characters and re-parsed with
a single decimal point; floats are modelled as exact rationals). -/
theorem get_coordinate_worked_contract :
    get_coordinate "4620100" 2 = some (46201 / 1000 : ℚ) ∧
    get_coordinate "519800" 1 = some (5198 / 1000 : ℚ) ∧
    get_coordinate "4584829.0858556" 1 = some (4584829 / 1000000 : ℚ) := by
  have h1 : get_coordinate "4620100" 2
      = some (((46 : ℕ) : ℚ) + ((20100 : ℕ) : ℚ) / (10 : ℚ) ^ (5 : ℕ)) := rfl
  have h2 : get_coordinate "519800" 1
      = some (((5 : ℕ) : ℚ) + ((19800 : ℕ) : ℚ) / (10 : ℚ) ^ (5 : ℕ)) := rfl
  have h3 : get_coordinate "4584829.0858556" 1
      = some (((4 : ℕ) : ℚ) + ((584829 : ℕ) : ℚ) / (10 : ℚ) ^ (6 : ℕ)) := rfl
  refine ⟨?_, ?_, ?_⟩
  · rw [h1, Option.some.injEq]; push_cast; norm_num
  · rw [h2, Option.some.injEq]; push_cast; norm_num
  · rw [h3, Option.some.injEq]; push_cast; norm_num

/-- C3 (counterexample): the claim says the decoder fails exactly when the
string has fewer than `integerDigits` leading digits or is not numeric; but
`"4"` has only 1 leading digit while `get_coordinate "4" 2` still succeeds
(Python `float("4.")` is 4.0). -/
theorem get_coordinate_short_string_succeeds :
    ("4".data.takeWhile Char.isDigit).length < 2 ∧ get_coordinate "4" 2 = some 4 := by
  constructor
  · decide
  · have h : get_coordinate "4" 2
        = some (((4 : ℕ) : ℚ) + ((0 : ℕ) : ℚ) / (10 : ℚ) ^ (0 : ℕ)) := rfl
    rw [h, Option.some.injEq]; push_cast; norm_num

/-- C3 (amended): the decoder has no side effects and fails only on
non-numeric material: on every nonempty all-digit string it succeeds —
even with fewer than `integerDigits` leading digits, since the recombined
string (e.g. `"4."`) still parses — while the empty string and a
non-numeric string fail. -/
theorem get_coordinate_failure_behaviour :
    (∀ (s : String) (n : ℕ), s ≠ "" → (∀ c ∈ s.data, c.isDigit = true) →
        (get_coordinate s n).isSome = true) ∧
    get_coordinate "" 2 = none ∧
    get_coordinate "abc" 2 = none :=
  ⟨get_coordinate_digits_isSome, rfl, rfl⟩

/-- C3 witness: the amended theorem applied to the concrete string "4". -/
theorem get_coordinate_failure_behaviour_witness :
    (get_coordinate "4" 2).isSome = true :=
  get_coordinate_failure_behaviour.1 "4" 2 (by decide) (by decide)

/-! ### Claim C1: the forward fill -/

/-- The fold of lines 154-163 agrees with the §4.6 "last known value"
recursion from any aligned intermediate state: the last element of the
array built so far and the spec's last-known value default to the same
emission. -/
theorem forward_fill_go (ph : PyDict String ℚ) (ds : List String) (acc : List ℚ)
    (last : Option ℚ) (h : (acc.getLast?).getD 0 = last.getD 0) :
    ds.foldl (fun acc date_key =>
        acc ++ [match ph.lookup date_key with
                | some price => price
                | none => (acc.getLast?).getD 0]) acc
      = acc ++ forwardFillSpecGo ph last ds := by
  induction ds generalizing acc last with
  | nil => simp [forwardFillSpecGo]
  | cons d ds ih =>
    simp only [List.foldl_cons, forwardFillSpecGo]
    cases hl : ph.lookup d with
    | some p =>
      show (List.foldl _ (acc ++ [p]) ds : List ℚ)
          = acc ++ (p :: forwardFillSpecGo ph (some p) ds)
      rw [ih (acc ++ [p]) (some p) (by simp)]
      simp
    | none =>
      show (List.foldl _ (acc ++ [(acc.getLast?).getD 0]) ds : List ℚ)
          = acc ++ (last.getD 0 :: forwardFillSpecGo ph last ds)
      rw [h, ih (acc ++ [last.getD 0]) last (by simp)]
      simp

/-- C1: the emitted value at each window date is the stored price when the
date is a key of the fuel type's history, otherwise the last known stored
value when one exists, otherwise 0 — i.e. the code's fold equals the
spec's forward-fill recursion on every history and window — and the three
worked windows `[d1,d2,d3]` behave as stated. -/
theorem forward_fill_matches_spec :
    (∀ (ph : PyDict String ℚ) (window : List String),
        forward_fill ph window = forwardFillSpec ph window) ∧
    forward_fill [("d1", 3 / 2)] ["d1", "d2", "d3"] = [3 / 2, 3 / 2, 3 / 2] ∧
    forward_fill [] ["d1", "d2", "d3"] = [0, 0, 0] ∧
    forward_fill [("d2", 2)] ["d1", "d2", "d3"] = [0, 2, 2] := by
  refine ⟨fun ph window => ?_, rfl, rfl, rfl⟩
  have h := forward_fill_go ph window [] none (by simp)
  simpa [forward_fill, forwardFillSpec] using h

/-! ### Claim C8: array shape of the heatmap output -/

theorem lookup_buildCarburants (window : List String)
    (hist : PyDict (Option String) (PyDict String ℚ)) (fuel : Option String) :
    (buildCarburants window hist).lookup fuel
      = (hist.lookup fuel).map (fun ph => forward_fill ph window) := by
  induction hist with
  | nil => rfl
  | cons e t ih =>
    obtain ⟨k, v⟩ := e
    by_cases hk : fuel = k
    · subst hk
      simp [buildCarburants, PyDict.lookup]
    · simpa [buildCarburants, PyDict.lookup, hk] using ih

theorem forwardFillSpecGo_length (ph : PyDict String ℚ) (last : Option ℚ)
    (ds : List String) : (forwardFillSpecGo ph last ds).length = ds.length := by
  induction ds generalizing last with
  | nil => rfl
  | cons d ds ih =>
    simp only [forwardFillSpecGo]
    cases ph.lookup d <;> simp [ih]

theorem forward_fill_length (ph : PyDict String ℚ) (window : List String) :
    (forward_fill ph window).length = window.length := by
  have h := forward_fill_go ph window [] none (by simp)
  have he : forward_fill ph window = forwardFillSpecGo ph none window := by
    simpa [forward_fill] using h
  rw [he, forwardFillSpecGo_length]

theorem dayNumbers_pairwise : dayNumbers.Pairwise (fun a b => b < a) := by
  unfold dayNumbers
  rw [List.pairwise_map]
  refine (List.pairwise_lt_range 365).imp_of_mem ?_
  intro a b ha hb hab
  have hb' : b < 365 := List.mem_range.mp hb
  omega

/-- C8: for every station history and fuel type, the output carries an
array exactly for the fuel types present in the history (absent fuel types
produce no array), each array's length equals the window length, the
default window has length 365, and its day offsets strictly decrease
(oldest date first). -/
theorem carburants_shape :
    (∀ (window : List String) (hist : PyDict (Option String) (PyDict String ℚ))
        (fuel : Option String),
        (buildCarburants window hist).lookup fuel
          = (hist.lookup fuel).map (fun ph => forward_fill ph window)) ∧
    (∀ (ph : PyDict String ℚ) (window : List String),
        (forward_fill ph window).length = window.length) ∧
    (∀ dateOf : ℕ → String, (default_date_strings dateOf).length = 365) ∧
    dayNumbers.Pairwise (fun a b => b < a) :=
  ⟨lookup_buildCarburants, forward_fill_length,
   fun dateOf => by simp [default_date_strings, dayNumbers], dayNumbers_pairwise⟩

/-! ### Claim C9: last write wins in the price history -/

theorem PyDict.lookup_insert {α β : Type} [DecidableEq α] (d : PyDict α β) (k k' : α) (v : β) :
    (d.insert k v).lookup k' = if k' = k then some v else d.lookup k' := by
  induction d with
  | nil => simp [PyDict.insert, PyDict.lookup]
  | cons e t ih =>
    obtain ⟨k₀, v₀⟩ := e
    by_cases h1 : k = k₀
    · subst h1
      by_cases h2 : k' = k <;> simp [PyDict.insert, PyDict.lookup, h2]
    · by_cases h2 : k' = k₀ <;> by_cases h3 : k' = k <;>
        simp_all [PyDict.insert, PyDict.lookup, ih]

theorem runPrix_append (hist : PyDict (Option String) (PyDict String ℚ))
    (l₁ l₂ : List RawPrix) :
    runPrix hist (l₁ ++ l₂)
      = match runPrix hist l₁ with
        | Except.error e => Except.error e
        | Except.ok h => runPrix h l₂ := by
  induction l₁ generalizing hist with
  | nil => simp [runPrix]
  | cons e es ih =>
    simp only [List.cons_append, runPrix]
    cases processPrix hist e <;> simp [ih]

theorem lastWriteValue_concat (es : List RawPrix) (e : RawPrix)
    (fuel : Option String) (date : String) :
    lastWriteValue (es ++ [e]) fuel date
      = match parsePrix e with
        | some r => if r.1 = fuel ∧ r.2.1 = date then some r.2.2
                    else lastWriteValue es fuel date
        | none => lastWriteValue es fuel date := by
  unfold lastWriteValue
  rw [List.filterMap_append]
  cases hp : parsePrix e with
  | none => simp [hp]
  | some r =>
    by_cases hm : r.1 = fuel ∧ r.2.1 = date
    · simp [hp, hm, List.filter_append]
    · simp [hp, hm, List.filter_append]

/-- C9: when a record's price-update list carries several entries with the
same (fuel-type, date) pair, the assembled history stores the value of the
last such entry in record-scan order: on every successful build, the
stored value at any (fuel-type, date) is exactly `lastWriteValue`. -/
theorem buildPriceHistory_last_write_wins (es : List RawPrix) (fuel : Option String)
    (date : String) (hok : ∃ h, buildPriceHistory es = Except.ok h) :
    (buildPriceHistory es).toOption.bind
        (fun hist => ((hist.lookup fuel).getD []).lookup date)
      = lastWriteValue es fuel date := by
  obtain ⟨hist, hh⟩ := hok
  rw [hh]
  induction es using List.reverseRecOn generalizing hist with
  | nil =>
    simp only [buildPriceHistory, runPrix] at hh
    cases hh
    rfl
  | append_singleton es e ih =>
    rw [lastWriteValue_concat]
    simp only [buildPriceHistory, runPrix_append] at hh
    cases hb : runPrix [] es with
    | error er => rw [hb] at hh; exact absurd hh (by simp)
    | ok h₀ =>
      rw [hb] at hh
      have ih' := ih h₀ hb
      simp only [Except.toOption, Option.bind] at ih'
      simp only [runPrix] at hh
      cases hpp : processPrix h₀ e with
      | error er => rw [hpp] at hh; exact absurd hh (by simp)
      | ok h' =>
      rw [hpp] at hh
      simp only [runPrix] at hh
      cases hh
      simp only [processPrix] at hpp
      by_cases hae : e.attribEmpty
      · rw [if_pos hae] at hpp
        cases hpp
        have hp : parsePrix e = none := by simp [parsePrix, hae]
        rw [hp]
        simpa using ih'
      · rw [if_neg hae] at hpp
        cases hv : e.valeur.bind pyFloat with
        | none => rw [hv] at hpp; exact absurd hpp (by cases e.maj.bind majToDate <;> simp)
        | some price =>
          cases hm : e.maj.bind majToDate with
          | none => rw [hv, hm] at hpp; exact absurd hpp (by simp)
          | some d' =>
            rw [hv, hm] at hpp
            cases hpp
            have hp : parsePrix e = some (e.nom, d', price) := by
              simp [parsePrix, hae, hv, hm]
            rw [hp]
            simp only [Except.toOption, Option.bind]
            by_cases hfuel : fuel = e.nom
            · subst hfuel
              by_cases hdate : date = d'
              · subst hdate
                simp [PyDict.lookup_insert]
              · have hdate' : ¬(d' = date) := fun h => hdate h.symm
                simp [PyDict.lookup_insert, hdate, hdate', ih']
            · have hfuel' : ¬(e.nom = fuel) := fun h => hfuel h.symm
              simp [PyDict.lookup_insert, hfuel, hfuel', ih']

/-- C9 witness: two entries for `Gazole` whose timestamps truncate to the
same date; the stored value is the later entry's. -/
theorem buildPriceHistory_last_write_wins_witness :
    (buildPriceHistory [demoPrix "1.80" "2023-01-05T08:00:00",
                        demoPrix "1.90" "2023-01-05T17:30:00"]).toOption.bind
        (fun hist => ((hist.lookup (some "Gazole")).getD []).lookup "2023-01-05")
      = lastWriteValue [demoPrix "1.80" "2023-01-05T08:00:00",
                        demoPrix "1.90" "2023-01-05T17:30:00"] (some "Gazole") "2023-01-05" :=
  buildPriceHistory_last_write_wins _ _ _ ⟨_, rfl⟩

/-! ### Claim C6: the name-resolution pool -/

theorem poolTable_apply (net : ℤ → Option String) (ids : List ℤ) (order : List ℕ)
    (t₀ : ℕ → Option (ℤ × Option String)) (j : ℕ) :
    order.foldl (fun t i => Function.update t i ((ids.get? i).map (get_station_name net))) t₀ j
      = if j ∈ order then (ids.get? j).map (get_station_name net) else t₀ j := by
  induction order generalizing t₀ with
  | nil => simp
  | cons i rest ih =>
    simp only [List.foldl_cons]
    rw [ih]
    by_cases hj : j ∈ rest
    · simp [hj]
    · by_cases hij : j = i
      · subst hij
        simp [hj, Function.update_apply]
      · simp [hj, hij, Function.update_apply]

/-- C6: whatever the completion order — any permutation of the task
indices — every slot of the pool's result holds that id paired with the
result of its own lookup (a failed lookup yields an absent name, never an
error), and with K of the N lookups succeeding exactly K result entries
carry a name. -/
theorem executorMap_association (net : ℤ → Option String) (ids : List ℤ)
    (order : List ℕ) (hperm : order.Perm (List.range ids.length)) :
    executorMap net ids order = ids.map (fun i => some (i, net i)) ∧
    (executorMap net ids order).countP (fun r => r.elim false (fun p => p.2.isSome))
      = ids.countP (fun i => (net i).isSome) := by
  have hmain : executorMap net ids order = ids.map (fun i => some (i, net i)) := by
    apply List.ext_get
    · simp [executorMap]
    · intro k h1 h2
      have hk : k < ids.length := by simpa [executorMap] using h1
      have hmem : k ∈ order := hperm.mem_iff.mpr (List.mem_range.mpr hk)
      have e1 : (executorMap net ids order).get ⟨k, h1⟩ = poolTable net ids order k := by
        simp [executorMap]
      have e2 : (ids.map (fun i => some (i, net i))).get ⟨k, h2⟩
          = some (ids.get ⟨k, hk⟩, net (ids.get ⟨k, hk⟩)) := by
        simp
      rw [e1, e2]
      unfold poolTable
      rw [poolTable_apply, if_pos hmem, List.get?_eq_get hk]
      rfl
  refine ⟨hmain, ?_⟩
  rw [hmain, List.countP_map]
  apply List.countP_congr
  intro i _
  simp [Function.comp, get_station_name, get_name_station]

/-- C6 witness: two ids resolved in reversed completion order. -/
theorem executorMap_association_witness :
    executorMap demoNet [1, 2] [1, 0] = ([1, 2] : List ℤ).map (fun i => some (i, demoNet i)) ∧
    (executorMap demoNet [1, 2] [1, 0]).countP (fun r => r.elim false (fun p => p.2.isSome))
      = ([1, 2] : List ℤ).countP (fun i => (demoNet i).isSome) :=
  executorMap_association demoNet [1, 2] [1, 0] (by decide)

/-! ### Claim C10: the ouverture/horaire tag mismatch -/

theorem processJour_mismatch_error (day : RawJour) (hmm : jourMismatch day = true) :
    ∀ days, processJour days day = Except.error () := by
  intro days
  have hferme : ¬(day.ferme = some "1") := by
    intro h
    simp [jourMismatch, h] at hmm
  have houv : day.has_ouverture = true := by
    cases h : day.has_ouverture
    · simp [jourMismatch, h] at hmm
    · rfl
  cases hid : day.id.bind pyInt with
  | none => simp [processJour, hid]
  | some day_id =>
    cases hh : day.horaire with
    | none => simp [processJour, hid, hh, hferme, houv]
    | some hr =>
      cases ho : hr.ouverture with
      | none =>
        cases hf : hr.fermeture <;> simp [processJour, hid, hh, ho, hf, hferme, houv]
      | some ot =>
        cases hf : hr.fermeture with
        | none => simp [processJour, hid, hh, ho, hf, hferme, houv]
        | some ct =>
          cases hpo : parseHM ot with
          | none =>
            cases hpc : parseHM ct <;>
              simp [processJour, hid, hh, ho, hf, hpo, hpc, hferme, houv]
          | some st =>
            cases hpc : parseHM ct with
            | none => simp [processJour, hid, hh, ho, hf, hpo, hpc, hferme, houv]
            | some et =>
              exfalso
              simp [jourMismatch, hh, ho, hf, hpo, hpc, hferme, houv] at hmm

theorem runJours_error (l : List RawJour) (day : RawJour) (hmem : day ∈ l)
    (herr : ∀ days, processJour days day = Except.error ()) :
    ∀ days, runJours days l = Except.error () := by
  induction l with
  | nil => cases hmem
  | cons a rest ih =>
    intro days
    rcases List.mem_cons.mp hmem with rfl | hmem'
    · unfold runJours
      rw [herr days]
    · unfold runJours
      cases hpa : processJour days a with
      | error e => cases e; rfl
      | ok days' => exact ih hmem' days'

/-- C10: the closed-day check at line 80 tests for an `<ouverture>` child
while the times at lines 84-85 are read from a `<horaire>` child; a day
that is not marked closed and has an `<ouverture>` child but no readable
`<horaire>` times makes the normalizer raise an unhandled error, and since
`parse_data` does not catch it the record is not dropped — the whole run
aborts, as on the concrete record in the second conjunct. -/
theorem opening_hours_mismatch_raises :
    (∀ (h : RawHoraires) (day : RawJour), day ∈ h.jours → jourMismatch day = true →
        processHoraires h = Except.error ()) ∧
    parse_data demoNet [demoPdv "1" (some ⟨false, [demoBadJour]⟩) []] = Except.error () := by
  constructor
  · intro h day hmem hmm
    unfold processHoraires
    rw [runJours_error h.jours day hmem (processJour_mismatch_error day hmm) []]
  · rfl

/-- C10 witness: a block holding the concrete mismatched day. -/
theorem opening_hours_mismatch_raises_witness :
    processHoraires ⟨false, [demoBadJour]⟩ = Except.error () :=
  opening_hours_mismatch_raises.1 ⟨false, [demoBadJour]⟩ demoBadJour (by decide) (by decide)

/-! ### Claim C4: absent opening-hours block and the stale flag -/

/-- C4: refuted by the code — line 95 (`is_always_open = always_open`)
runs on every record, but `always_open` is only assigned inside the
`if horaires_element is not None` block, so a record with no block reads
the previous record's value: after a record whose block carries
`automate-24-24`, a block-less record gets `is_always_open = true` where
the claim requires `false` (its opening-hours field does stay absent);
and on a run whose first record has no block the read raises `NameError`,
aborting everything. -/
theorem absent_horaires_stale_always_open :
    (parse_data demoNet [demoPdv "1" (some demoAutomate) [], demoPdv "2" none []]).toOption.map
        (List.map (fun s => (s.is_always_open, s.opening_hours)))
      = some [(true, some ⟨[]⟩), (true, none)] ∧
    parse_data demoNet [demoPdv "1" none []] = Except.error () :=
  ⟨rfl, rfl⟩

/-! ### Claim C5: failure isolation -/

/-- C5 (counterexample): a malformed price value confined to the first
record — whose mandatory fields all decode — aborts the entire run: the
well-formed second record is not assembled (alone it would be), so the
per-record failure does affect other records. -/
theorem bad_price_aborts_run :
    mandatoryOk (demoPdv "1" (some demoAutomate)
        [⟨false, some "Gazole", some "abc", some "2023-01-05T08:00:00"⟩]) = true ∧
    parse_data demoNet
        [demoPdv "1" (some demoAutomate)
            [⟨false, some "Gazole", some "abc", some "2023-01-05T08:00:00"⟩],
         demoPdv "2" (some demoAutomate) []]
      = Except.error () ∧
    (parse_data demoNet [demoPdv "2" (some demoAutomate) []]).toOption.map
        (List.map GasStation.id) = some [2] :=
  ⟨rfl, rfl, rfl⟩

/-- C5 (amended): isolation holds exactly for mandatory-field failures —
a record whose lines-62-72 try block fails is skipped by `continue`
without affecting any other record of the run — while a failure in a
record's opening-hours or price parsing is not isolated: it aborts the
whole run (see the counterexample). -/
theorem invalid_record_skipped (st : LoopState)
    (l₁ l₂ : List (RawPdv × ℤ × Option String)) (bad : RawPdv × ℤ × Option String)
    (hbad : mandatoryOk bad.1 = false) :
    runLoop st (l₁ ++ bad :: l₂) = runLoop st (l₁ ++ l₂) := by
  induction l₁ generalizing st with
  | nil =>
    simp only [List.nil_append]
    have ht : tryBlock bad.1 = none := by
      cases h : tryBlock bad.1
      · rfl
      · rw [mandatoryOk, h] at hbad
        simp at hbad
    have hpr : processRecord st bad.1 bad.2.1 bad.2.2 = Except.ok (st, false) := by
      unfold processRecord
      rw [ht]
    show (match processRecord st bad.1 bad.2.1 bad.2.2 with
          | Except.error e => Except.error e
          | Except.ok r => if r.2 = true then Except.ok r.1 else runLoop r.1 l₂)
        = runLoop st l₂
    rw [hpr]
    rfl
  | cons x xs ih =>
    simp only [List.cons_append]
    unfold runLoop
    cases processRecord st x.1 x.2.1 x.2.2 with
    | error e => rfl
    | ok r =>
      by_cases hr2 : r.2
      · simp [hr2]
      · simp [hr2, ih r.1]

/-- C5 witness: a good record followed by a record with no `<ville>`
child; dropping the bad record leaves the run on the good one unchanged. -/
theorem invalid_record_skipped_witness :
    runLoop ⟨[], none, 0⟩
        [(demoPdv "1" (some demoAutomate) [], 1, demoNet 1), (demoNoCityPdv, 7, demoNet 7)]
      = runLoop ⟨[], none, 0⟩ [(demoPdv "1" (some demoAutomate) [], 1, demoNet 1)] :=
  invalid_record_skipped ⟨[], none, 0⟩ [(demoPdv "1" (some demoAutomate) [], 1, demoNet 1)]
    [] (demoNoCityPdv, 7, demoNet 7) rfl

/-! ### Claim C7: mandatory-field validation -/

theorem readIds_cons (p : RawPdv) (ps : List RawPdv) (ids : List ℤ)
    (h : readIds (p :: ps) = Except.ok ids) :
    ∃ i is, p.id.bind pyInt = some i ∧ readIds ps = Except.ok is ∧ ids = i :: is := by
  have h2 : (match p.id.bind pyInt with
             | none => (Except.error () : Except Unit (List ℤ))
             | some i =>
               match readIds ps with
               | Except.error e => Except.error e
               | Except.ok is => Except.ok (i :: is)) = Except.ok ids := h
  cases hi : p.id.bind pyInt with
  | none => rw [hi] at h2; exact absurd h2 (by simp)
  | some j =>
    rw [hi] at h2
    have h3 : (match readIds ps with
               | Except.error e => (Except.error e : Except Unit (List ℤ))
               | Except.ok is => Except.ok (j :: is)) = Except.ok ids := h2
    cases hr : readIds ps with
    | error e => rw [hr] at h3; exact absurd h3 (by simp)
    | ok is' =>
      rw [hr] at h3
      have h4 : Except.ok (j :: is') = Except.ok ids := h3
      exact ⟨j, is', rfl, rfl, (Except.ok.inj h4).symm⟩

theorem readIds_length (root : List RawPdv) (ids : List ℤ)
    (h : readIds root = Except.ok ids) : ids.length = root.length := by
  induction root generalizing ids with
  | nil =>
    have h2 : Except.ok ([] : List ℤ) = Except.ok ids := h
    obtain rfl := Except.ok.inj h2
    rfl
  | cons p ps ih =>
    obtain ⟨i, is', _, hr, rfl⟩ := readIds_cons p ps ids h
    simp [ih is' hr]

theorem zip_filter_ids (net : ℤ → Option String) (root : List RawPdv) (ids : List ℤ)
    (h : readIds root = Except.ok ids) :
    ((root.zip (ids.map (get_station_name net))).filter
        (fun x => mandatoryOk x.1)).map (fun x => x.2.1)
      = (root.filter (fun p => mandatoryOk p)).filterMap (fun p => p.id.bind pyInt) ∧
    ((root.zip (ids.map (get_station_name net))).filter
        (fun x => mandatoryOk x.1)).length
      = (root.filter (fun p => mandatoryOk p)).length := by
  induction root generalizing ids with
  | nil =>
    have h2 : Except.ok ([] : List ℤ) = Except.ok ids := h
    obtain rfl := Except.ok.inj h2
    simp
  | cons p ps ih =>
    obtain ⟨i, is', hi, hr, rfl⟩ := readIds_cons p ps ids h
    obtain ⟨ihm, ihl⟩ := ih is' hr
    by_cases hm : mandatoryOk p
    · simp [List.zip_cons_cons, List.filter_cons, List.filterMap_cons, get_station_name,
        hm, hi, ihm, ihl]
    · simp [List.zip_cons_cons, List.filter_cons, List.filterMap_cons, get_station_name,
        hm, ihm, ihl]

theorem processRecord_ok_shape (st : LoopState) (pdv : RawPdv) (sid : ℤ)
    (name : Option String) (r : LoopState × Bool) (hm : mandatoryOk pdv = true)
    (h : processRecord st pdv sid name = Except.ok r) :
    ∃ gs : GasStation, gs.id = sid ∧
      r.1.gas_stations = st.gas_stations ++ [gs] ∧
      r.1.count = st.count + 1 ∧
      r.2 = decide (st.count + 1 > MAXX) := by
  cases htb : tryBlock pdv with
  | none => rw [mandatoryOk, htb] at hm; simp at hm
  | some tup =>
    obtain ⟨address, latitude, longitude, postal_code, city⟩ := tup
    have hre : processRecord st pdv sid name
        = (match ((match pdv.horaires with
                   | none => Except.ok ((none : Option OpeningHours), st.always_open)
                   | some hb => (processHoraires hb).map (fun r => (some r.2, some r.1))) :
                    Except Unit (Option OpeningHours × Option Bool)) with
           | Except.error e => Except.error e
           | Except.ok hoursAndFlag =>
             match hoursAndFlag.2 with
             | none => Except.error ()
             | some is_always_open =>
               match buildPriceHistory pdv.prix with
               | Except.error e => Except.error e
               | Except.ok gas_price_history =>
                 Except.ok
                   (⟨st.gas_stations ++
                       [⟨sid, name, address, latitude, longitude, postal_code, city,
                         is_always_open, hoursAndFlag.1, gas_price_history⟩],
                     hoursAndFlag.2, st.count + 1⟩,
                    decide (st.count + 1 > MAXX))) := by
      unfold processRecord
      rw [htb]
    rw [hre] at h
    split at h
    · exact absurd h (by simp)
    · split at h
      · exact absurd h (by simp)
      · split at h
        · exact absurd h (by simp)
        · obtain rfl := (Except.ok.inj h).symm
          exact ⟨_, rfl, rfl, rfl, rfl⟩

theorem runLoop_ok_shape (pairs : List (RawPdv × ℤ × Option String)) :
    ∀ (st st' : LoopState), st.count + pairs.length ≤ MAXX →
      runLoop st pairs = Except.ok st' →
      st'.gas_stations.map GasStation.id
          = st.gas_stations.map GasStation.id
            ++ (pairs.filter (fun x => mandatoryOk x.1)).map (fun x => x.2.1) ∧
      st'.gas_stations.length
          = st.gas_stations.length + (pairs.filter (fun x => mandatoryOk x.1)).length := by
  induction pairs with
  | nil =>
    intro st st' _ h
    have h2 : Except.ok st = Except.ok st' := h
    obtain rfl := Except.ok.inj h2
    simp
  | cons x xs ih =>
    intro st st' hc h
    simp only [List.length_cons] at hc
    have h2 : (match processRecord st x.1 x.2.1 x.2.2 with
               | Except.error e => (Except.error e : Except Unit LoopState)
               | Except.ok r => if r.2 = true then Except.ok r.1 else runLoop r.1 xs)
        = Except.ok st' := h
    cases hpr : processRecord st x.1 x.2.1 x.2.2 with
    | error e => rw [hpr] at h2; exact absurd h2 (by simp)
    | ok r =>
      rw [hpr] at h2
      have h3 : (if r.2 = true then Except.ok r.1 else runLoop r.1 xs) = Except.ok st' := h2
      by_cases hm : mandatoryOk x.1
      · obtain ⟨gs, hid, hgs, hcount, hbrk⟩ :=
          processRecord_ok_shape st x.1 x.2.1 x.2.2 r hm hpr
        have hbrk' : r.2 = false := by
          rw [hbrk]
          simp only [decide_eq_false_iff_not]
          omega
        rw [hbrk'] at h3
        simp only [Bool.false_eq_true, if_false] at h3
        have hcc : r.1.count + xs.length ≤ MAXX := by
          rw [hcount]
          omega
        obtain ⟨hmap, hlen⟩ := ih r.1 st' hcc h3
        constructor
        · rw [hmap, hgs]
          simp [List.filter_cons, hm, hid]
        · rw [hlen, hgs]
          simp [List.filter_cons, hm]
          omega
      · have ht : tryBlock x.1 = none := by
          cases htb : tryBlock x.1
          · rfl
          · rw [mandatoryOk, htb] at hm; simp at hm
        have hpr2 : processRecord st x.1 x.2.1 x.2.2 = Except.ok (st, false) := by
          unfold processRecord
          rw [ht]
        rw [hpr] at hpr2
        obtain rfl := (Except.ok.inj hpr2).symm
        have h4 : runLoop st xs = Except.ok st' := h3
        obtain ⟨hmap, hlen⟩ := ih st st' (by omega) h4
        constructor
        · rw [hmap]
          simp [List.filter_cons, hm]
        · rw [hlen]
          simp [List.filter_cons, hm]

/-- C7 (counterexample): a record whose address, city and both coordinates
all decode can still yield no Station — its malformed price value aborts
the whole run — so producing a Station is not equivalent to passing
mandatory-field validation. -/
theorem valid_record_yields_no_station :
    mandatoryOk (demoPdv "3" (some demoAutomate)
        [⟨false, some "SP95", some "not-a-number", some "2023-04-01T10:00:00"⟩]) = true ∧
    parse_data demoNet
        [demoPdv "3" (some demoAutomate)
            [⟨false, some "SP95", some "not-a-number", some "2023-04-01T10:00:00"⟩]]
      = Except.error () :=
  ⟨rfl, rfl⟩

/-- C7 (amended): on a run that completes (no uncaught error from ids,
opening hours or prices) over at most `maxx` records, a Station is
produced exactly for the records whose address, city and both coordinates
decode, in input order — the station ids are the valid records' ids, the
station count is the valid-record count — and the retained count is at
most the input count.  (A record passing validation can still abort the
entire run, see the counterexample.) -/
theorem parse_data_validation (net : ℤ → Option String) (root : List RawPdv)
    (hlen : root.length ≤ MAXX) (hok : ∃ s, parse_data net root = Except.ok s) :
    (parse_data net root).toOption.map (List.map GasStation.id)
      = some ((root.filter (fun p => mandatoryOk p)).filterMap (fun p => p.id.bind pyInt)) ∧
    (parse_data net root).toOption.map List.length
      = some ((root.filter (fun p => mandatoryOk p)).length) ∧
    (root.filter (fun p => mandatoryOk p)).length ≤ root.length := by
  obtain ⟨stations, hs⟩ := hok
  have h2 : (match readIds root with
             | Except.error e => (Except.error e : Except Unit (List GasStation))
             | Except.ok station_ids =>
               match runLoop ⟨[], none, 0⟩
                   (root.zip ((station_ids.take MAXX).map (get_station_name net))) with
               | Except.error e => Except.error e
               | Except.ok final => Except.ok final.gas_stations) = Except.ok stations := hs
  cases hri : readIds root with
  | error e => rw [hri] at h2; exact absurd h2 (by simp)
  | ok ids =>
    rw [hri] at h2
    have hlen2 : ids.length = root.length := readIds_length root ids hri
    have htake : ids.take MAXX = ids := List.take_of_length_le (by rw [hlen2]; exact hlen)
    have h3 : (match runLoop ⟨[], none, 0⟩
                   (root.zip ((ids.take MAXX).map (get_station_name net))) with
               | Except.error e => (Except.error e : Except Unit (List GasStation))
               | Except.ok final => Except.ok final.gas_stations) = Except.ok stations := h2
    rw [htake] at h3
    cases hrl : runLoop ⟨[], none, 0⟩ (root.zip (ids.map (get_station_name net))) with
    | error e => rw [hrl] at h3; exact absurd h3 (by simp)
    | ok final =>
      rw [hrl] at h3
      have h4 : Except.ok final.gas_stations = Except.ok stations := h3
      obtain rfl := (Except.ok.inj h4).symm
      have hzlen : (root.zip (ids.map (get_station_name net))).length ≤ MAXX := by
        rw [List.length_zip]
        simp [hlen2]
        omega
      obtain ⟨hmap, hlen3⟩ :=
        runLoop_ok_shape (root.zip (ids.map (get_station_name net))) ⟨[], none, 0⟩ final
          (by simpa using hzlen) hrl
      obtain ⟨hzm, hzl⟩ := zip_filter_ids net root ids hri
      rw [hs]
      refine ⟨?_, ?_, List.length_filter_le _ root⟩
      · simp only [Except.toOption, Option.map]
        rw [hmap]
        simp only [List.map_nil, List.nil_append]
        rw [hzm]
      · simp only [Except.toOption, Option.map]
        rw [hlen3]
        simp only [List.length_nil, Nat.zero_add]
        rw [hzl]

/-- C7 witness: a good record followed by a record with no city — one
Station, carrying the good record's id. -/
theorem parse_data_validation_witness :
    (parse_data demoNet [demoPdv "1" (some demoAutomate) [], demoNoCityPdv]).toOption.map
        (List.map GasStation.id)
      = some ((([demoPdv "1" (some demoAutomate) [], demoNoCityPdv]).filter
          (fun p => mandatoryOk p)).filterMap (fun p => p.id.bind pyInt)) ∧
    (parse_data demoNet [demoPdv "1" (some demoAutomate) [], demoNoCityPdv]).toOption.map
        List.length
      = some ((([demoPdv "1" (some demoAutomate) [], demoNoCityPdv]).filter
          (fun p => mandatoryOk p)).length) ∧
    (([demoPdv "1" (some demoAutomate) [], demoNoCityPdv]).filter
        (fun p => mandatoryOk p)).length
      ≤ ([demoPdv "1" (some demoAutomate) [], demoNoCityPdv] : List RawPdv).length :=
  parse_data_validation demoNet [demoPdv "1" (some demoAutomate) [], demoNoCityPdv]
    (by decide) ⟨_, rfl⟩

end Carbura
